import Mathlib

/-!
Verification of the reactive state cell (`AtomValue` in
`src/desktop/flipper-plugin/src/state/atom.tsx`) and the client-query /
table-plugin utilities of the flipper repository, as a shallow embedding
in Lean 4.

Modelling conventions:
* JavaScript reference equality on values (`!==` in `AtomValue.set`) is
  modelled by decidable equality on an abstract value type `α`.
* A listener callback is identified by a natural-number id (standing for
  the object identity of the closure).  The only side effects a callback can
  have that the verified claims are about are mutations of the listener
  list itself (subscribing a new listener, unsubscribing one), so the
  behaviour of a callback is modelled by the small action language
  `ListenerAction`; invoking a listener is recorded in an event log.
* Exceptions are modelled with `Except` / an `Option` error component.
-/

namespace Flipper

/-- The effect a listener callback has on the listener list when invoked:
it can do nothing, subscribe a fresh listener (`this.listeners.push`), or
unsubscribe a listener by identity. -/
inductive ListenerAction where
  | pass : ListenerAction
  | subscribeNew : Nat → ListenerAction → ListenerAction
  | unsub : Nat → ListenerAction
deriving DecidableEq, Repr

/-- A registered listener: its identity (JS closure identity) and its
behaviour when invoked. -/
structure Listener where
  id : Nat
  act : ListenerAction
deriving DecidableEq, Repr

/-- State of one `AtomValue<T>` object: the fields `value` and
`listeners` of the class, plus an event log recording every listener
invocation as `(listener id, newValue, prevValue)` — the arguments the
callback receives in `notifyChanged`. -/
structure AtomState (α : Type) where
  value : α
  listeners : List Listener
  log : List (Nat × α × α)
deriving DecidableEq, Repr

variable {α : Type}

/-- `AtomValue.get`: returns the current value. -/
def get (s : AtomState α) : α :=
  s.value

/-- Body of `AtomValue.unsubscribe` on the listener list:
`idx = listeners.indexOf(listener); if (idx !== -1) listeners.splice(idx, 1)`.
`indexOf` is the first index whose entry is identity-equal to the
listener, `splice(idx, 1)` removes that single entry. -/
def unsubscribeList (i : Nat) (ls : List Listener) : List Listener :=
  match ls.findIdx? (fun l => l.id == i) with
  | none => ls
  | some idx => ls.eraseIdx idx

/-- `AtomValue.unsubscribe` as a state transformer. -/
def unsubscribeA (i : Nat) (s : AtomState α) : AtomState α :=
  { s with listeners := unsubscribeList i s.listeners }

/-- Body of `AtomValue.subscribe` on the listener list:
`this.listeners.push(listener)`. -/
def subscribeList (l : Listener) (ls : List Listener) : List Listener :=
  ls ++ [l]

/-- `AtomValue.subscribe` as a state transformer (registration part). -/
def subscribeA (l : Listener) (s : AtomState α) : AtomState α :=
  { s with listeners := subscribeList l s.listeners }

/-- The zero-argument handle returned by `AtomValue.subscribe`:
`() => this.unsubscribe(listener)`. -/
def subscribeHandle (l : Listener) : AtomState α → AtomState α :=
  fun s => unsubscribeA l.id s

/-- Run one listener action on the listener list. -/
def runAction : ListenerAction → List Listener → List Listener
  | .pass, ls => ls
  | .subscribeNew i a, ls => subscribeList ⟨i, a⟩ ls
  | .unsub i, ls => unsubscribeList i ls

/-- Invoking one listener `l` from the snapshot: the call
`l(this.value, prevValue)` is recorded in the log, and the effect of the
callback on the (live) listener list is applied. -/
def invokeListener (s : AtomState α) (l : Listener) (prev : α) : AtomState α :=
  { s with
      log := s.log ++ [(l.id, s.value, prev)]
      listeners := runAction l.act s.listeners }

/-- `snapshot.forEach((l) => l(this.value, prevValue))`: invoke each
listener of the snapshot in order, threading the live state. -/
def runPass (snapshot : List Listener) (s : AtomState α) (prev : α) : AtomState α :=
  match snapshot with
  | [] => s
  | l :: rest => runPass rest (invokeListener s l prev) prev

/-- `AtomValue.notifyChanged`: take a snapshot of the listener list
(`this.listeners.slice()`) and invoke every snapshotted listener. -/
def notifyChanged (s : AtomState α) (prev : α) : AtomState α :=
  runPass s.listeners s prev

/-- `AtomValue.set`: if `nextValue !== this.value`, store the new value
and notify with the previous one; otherwise do nothing. -/
def set [DecidableEq α] (s : AtomState α) (nextValue : α) : AtomState α :=
  if nextValue ≠ s.value then
    notifyChanged { s with value := nextValue } s.value
  else
    s

/-- `AtomValue.deserialize`: `this.set(value)`. -/
def deserialize [DecidableEq α] (s : AtomState α) (v : α) : AtomState α :=
  set s v

/-- `AtomValue.serialize`: `return this.get()`. -/
def serialize (s : AtomState α) : α :=
  get s

/-- `AtomValue.update`: `this.set(produce(this.value, recipe))`.
The composite `produce(this.value, recipe)` is modelled as a function
from the current value to `Except ε α`: the immer produce function evaluates the
recipe on a draft and either yields the derived value or propagates the
exception of the recipe.  When it throws, `set` is never reached, so the
state of the object is returned unchanged together with the error. -/
def update [DecidableEq α] {ε : Type} (s : AtomState α)
    (recipe : α → Except ε α) : AtomState α × Option ε :=
  match recipe s.value with
  | .error e => (s, some e)
  | .ok v => (set s v, none)

/- Basic lemmas about a notification pass. -/

theorem invokeListener_value (s : AtomState α) (l : Listener) (prev : α) :
    (invokeListener s l prev).value = s.value := rfl

theorem runPass_value (snapshot : List Listener) (s : AtomState α) (prev : α) :
    (runPass snapshot s prev).value = s.value := by
  induction snapshot generalizing s with
  | nil => rfl
  | cons l rest ih => simp [runPass, ih, invokeListener_value]

theorem runPass_log (snapshot : List Listener) (s : AtomState α) (prev : α) :
    (runPass snapshot s prev).log
      = s.log ++ snapshot.map (fun l => (l.id, s.value, prev)) := by
  induction snapshot generalizing s with
  | nil => simp [runPass]
  | cons l rest ih =>
      simp [runPass, ih, invokeListener, invokeListener_value]

theorem set_value [DecidableEq α] (s : AtomState α) (b : α) (h : b ≠ s.value) :
    (set s b).value = b := by
  simp [set, h, notifyChanged, runPass_value]

theorem set_self [DecidableEq α] (s : AtomState α) :
    set s s.value = s := by
  simp [set]

theorem set_noop [DecidableEq α] (s : AtomState α) (v : α) (h : s.value = v) :
    set s v = s := by
  subst h; exact set_self s

theorem set_log [DecidableEq α] (s : AtomState α) (b : α) (h : b ≠ s.value) :
    (set s b).log = s.log ++ s.listeners.map (fun l => (l.id, b, s.value)) := by
  simp [set, h, notifyChanged, runPass_log]

/-- C1: after the atom holds `a`, `set b` (with `a ≠ b`) stores `b` and
invokes every currently-registered listener exactly once with arguments
`(b, a)` (one log entry per registered listener, in order); `set` with a
value equal to the current one is a complete no-op, so the second of two
consecutive `set a` calls notifies zero times. -/
theorem c1_set_semantics [DecidableEq α] (s : AtomState α) (a b : α)
    (hab : a ≠ b) (hv : s.value = a) :
    (set s b).value = b ∧
    (set s b).log = s.log ++ s.listeners.map (fun l => (l.id, b, a)) ∧
    set s a = s ∧
    ∀ t : AtomState α, set (set t a) a = set t a := by
  have hb : b ≠ s.value := by rw [hv]; exact fun h => hab h.symm
  refine ⟨set_value s b hb, ?_, set_noop s a hv, ?_⟩
  · rw [set_log s b hb, hv]
  · intro t
    by_cases h : t.value = a
    · rw [set_noop t a h]
      exact set_noop t a h
    · have hval : (set t a).value = a := set_value t a fun he => h he.symm
      exact set_noop (set t a) a hval

theorem c1_set_semantics_witness :
    ((0 : Nat) ≠ 1 ∧
      ({ value := 0, listeners := [⟨5, .pass⟩], log := [] } : AtomState Nat).value = 0) ∧
    ((set ({ value := 0, listeners := [⟨5, .pass⟩], log := [] } : AtomState Nat) 1).value = 1 ∧
     (set ({ value := 0, listeners := [⟨5, .pass⟩], log := [] } : AtomState Nat) 1).log
       = [] ++ [(⟨5, .pass⟩ : Listener)].map (fun l => (l.id, 1, 0)) ∧
     set ({ value := 0, listeners := [⟨5, .pass⟩], log := [] } : AtomState Nat) 0
       = { value := 0, listeners := [⟨5, .pass⟩], log := [] } ∧
     set (set ({ value := 7, listeners := [⟨5, .pass⟩], log := [] } : AtomState Nat) 0) 0
       = set ({ value := 7, listeners := [⟨5, .pass⟩], log := [] } : AtomState Nat) 0) := by
  have h := c1_set_semantics
    ({ value := 0, listeners := [⟨5, .pass⟩], log := [] } : AtomState Nat) 0 1 (by decide) rfl
  exact ⟨⟨by decide, rfl⟩, h.1, h.2.1, h.2.2.1,
    h.2.2.2 { value := 7, listeners := [⟨5, .pass⟩], log := [] }⟩

/-- C2: a notification pass invokes exactly the snapshot of the listener
list taken when the change is committed, in subscription order (part 1);
a listener subscribed by a callback during the pass is not invoked in
that pass, only registered and invoked in subsequent passes (part 2);
a listener unsubscribed by a callback during the pass is still invoked
for the in-flight pass and is gone afterwards (part 3). -/
theorem c2_notification_snapshot {α : Type} [DecidableEq α] :
    (∀ (s : AtomState α) (b : α), b ≠ s.value →
      (set s b).log = s.log ++ s.listeners.map (fun l => (l.id, b, s.value))) ∧
    (∀ (s : AtomState α) (b : α) (i j : Nat), b ≠ s.value →
      s.listeners = [⟨i, .subscribeNew j .pass⟩] →
      (set s b).log = s.log ++ [(i, b, s.value)] ∧
      (set s b).listeners = [⟨i, .subscribeNew j .pass⟩, ⟨j, .pass⟩] ∧
      ∀ c, c ≠ b →
        (set (set s b) c).log = (set s b).log ++ [(i, c, b), (j, c, b)]) ∧
    (∀ (s : AtomState α) (b : α) (i j : Nat), b ≠ s.value → i ≠ j →
      s.listeners = [⟨i, .unsub j⟩, ⟨j, .pass⟩] →
      (set s b).log = s.log ++ [(i, b, s.value), (j, b, s.value)] ∧
      (set s b).listeners = [⟨i, .unsub j⟩]) := by
  refine ⟨fun s b hb => set_log s b hb, ?_, ?_⟩
  · intro s b i j hb hls
    have hE : set s b =
        { value := b,
          listeners := [⟨i, .subscribeNew j .pass⟩, ⟨j, .pass⟩],
          log := s.log ++ [(i, b, s.value)] } := by
      simp [set, hb, notifyChanged, hls, runPass, invokeListener, runAction,
        subscribeList]
    refine ⟨by rw [hE], by rw [hE], ?_⟩
    intro c hc
    rw [hE]
    simp [set, hc, notifyChanged, runPass, invokeListener, runAction,
      subscribeList]
  · intro s b i j hb hij hls
    have hfind : unsubscribeList j [⟨i, .unsub j⟩, (⟨j, .pass⟩ : Listener)]
        = [⟨i, .unsub j⟩] := by
      simp [unsubscribeList, List.findIdx?_cons, hij, List.eraseIdx]
    constructor
    · simp [set, hb, notifyChanged, hls, runPass, invokeListener, runAction,
        hfind]
    · simp [set, hb, notifyChanged, hls, runPass, invokeListener, runAction,
        hfind]

theorem c2_notification_snapshot_witness :
    ((set ({ value := 0, listeners := [⟨3, .pass⟩], log := [] } : AtomState Nat) 1).log
      = [] ++ [(⟨3, .pass⟩ : Listener)].map (fun l => (l.id, 1, 0))) ∧
    ((set ({ value := 0, listeners := [⟨1, .subscribeNew 2 .pass⟩], log := [] } : AtomState Nat) 5).log
      = [] ++ [(1, 5, 0)] ∧
     (set ({ value := 0, listeners := [⟨1, .subscribeNew 2 .pass⟩], log := [] } : AtomState Nat) 5).listeners
      = [⟨1, .subscribeNew 2 .pass⟩, ⟨2, .pass⟩] ∧
     (set (set ({ value := 0, listeners := [⟨1, .subscribeNew 2 .pass⟩], log := [] } : AtomState Nat) 5) 7).log
      = (set ({ value := 0, listeners := [⟨1, .subscribeNew 2 .pass⟩], log := [] } : AtomState Nat) 5).log
          ++ [(1, 7, 5), (2, 7, 5)]) ∧
    ((set ({ value := 0, listeners := [⟨1, .unsub 2⟩, ⟨2, .pass⟩], log := [] } : AtomState Nat) 5).log
      = [] ++ [(1, 5, 0), (2, 5, 0)] ∧
     (set ({ value := 0, listeners := [⟨1, .unsub 2⟩, ⟨2, .pass⟩], log := [] } : AtomState Nat) 5).listeners
      = [⟨1, .unsub 2⟩]) :=
  ⟨c2_notification_snapshot.1 _ 1 (by decide),
   ⟨(c2_notification_snapshot.2.1 _ 5 1 2 (by decide) rfl).1,
    (c2_notification_snapshot.2.1 _ 5 1 2 (by decide) rfl).2.1,
    (c2_notification_snapshot.2.1 _ 5 1 2 (by decide) rfl).2.2 7 (by decide)⟩,
   c2_notification_snapshot.2.2 _ 5 1 2 (by decide) (by decide) rfl⟩

/-- C3: when the recipe throws, `update` propagates the error unchanged,
the value observed via `get` afterwards is the pre-call value, and no
listener was notified (the log is untouched). -/
theorem c3_update_failure [DecidableEq α] {ε : Type} (s : AtomState α)
    (recipe : α → Except ε α) (e : ε) (h : recipe s.value = .error e) :
    update s recipe = (s, some e) ∧
    get (update s recipe).1 = get s ∧
    (update s recipe).1.log = s.log := by
  simp [update, h]

theorem c3_update_failure_witness :
    ((fun _ : Nat => (Except.error "boom" : Except String Nat))
        (({ value := 0, listeners := [⟨4, .pass⟩], log := [] } : AtomState Nat).value)
      = .error "boom") ∧
    (update ({ value := 0, listeners := [⟨4, .pass⟩], log := [] } : AtomState Nat)
        (fun _ => .error "boom")
      = ({ value := 0, listeners := [⟨4, .pass⟩], log := [] }, some "boom") ∧
     get (update ({ value := 0, listeners := [⟨4, .pass⟩], log := [] } : AtomState Nat)
        (fun _ => .error "boom")).1
      = get ({ value := 0, listeners := [⟨4, .pass⟩], log := [] } : AtomState Nat) ∧
     (update ({ value := 0, listeners := [⟨4, .pass⟩], log := [] } : AtomState Nat)
        (fun _ => .error "boom")).1.log = []) :=
  ⟨rfl,
    c3_update_failure { value := 0, listeners := [⟨4, .pass⟩], log := [] }
      (fun _ => .error "boom") "boom" rfl⟩

/-- A two-field record value `\x7bx, y\x7d`, used to state the `update`
round-trip of the spec on a concrete structured value. -/
structure RecordXY where
  x : Int
  y : Int
deriving DecidableEq, Repr

/-- One mutation step a recipe may perform on the draft of a `RecordXY`
(`d.x = n`, `d.y = n`), or a throw. -/
inductive DraftCmd where
  | setX : Int → DraftCmd
  | setY : Int → DraftCmd
  | failWith : String → DraftCmd
deriving DecidableEq, Repr

/-- Run the recipe commands on the draft. -/
def runDraft : List DraftCmd → RecordXY → Except String RecordXY
  | [], d => .ok d
  | .setX n :: rest, d => runDraft rest { d with x := n }
  | .setY n :: rest, d => runDraft rest { d with y := n }
  | .failWith e :: _, _ => .error e

/-- The immer call `produce(value, recipe)` for `RecordXY` drafts: the draft
starts as a copy-on-write view of `v`; the finalized draft is the derived
value.  The original `v` is never mutated (values are immutable here). -/
def produce (v : RecordXY) (cmds : List DraftCmd) : Except String RecordXY :=
  runDraft cmds v

/-- C4: `update` behaves exactly as `set` with the value derived by the
recipe (part 1, for any atom and any succeeding recipe); concretely, on a
value `\x7bx:1, y:2\x7d` the recipe `d => d.x = 5` derives `\x7bx:5, y:2\x7d`, which
`get` then returns, while the value captured before the call is still
`\x7bx:1, y:2\x7d` (part 2). -/
theorem c4_update_roundtrip :
    (∀ {α : Type} [DecidableEq α] {ε : Type} (s : AtomState α)
        (recipe : α → Except ε α) (v : α), recipe s.value = .ok v →
        update s recipe = (set s v, none)) ∧
    (∀ (s : AtomState RecordXY), s.value = ⟨1, 2⟩ →
        produce s.value [.setX 5] = .ok ⟨5, 2⟩ ∧
        get (update s (fun v => produce v [.setX 5])).1 = ⟨5, 2⟩ ∧
        s.value = ⟨1, 2⟩) := by
  constructor
  · intro α _ ε s recipe v h
    simp [update, h]
  · intro s hv
    have hrec : produce s.value [DraftCmd.setX 5] = .ok ⟨5, 2⟩ := by
      rw [hv]; rfl
    have hne : (⟨5, 2⟩ : RecordXY) ≠ s.value := by rw [hv]; decide
    refine ⟨hrec, ?_, hv⟩
    simp [update, hrec, get, set_value s _ hne]

theorem c4_update_roundtrip_witness :
    ((({ value := ⟨1, 2⟩, listeners := [], log := [] } : AtomState RecordXY).value
        = ⟨1, 2⟩) ∧
     ((fun v : RecordXY => produce v [.setX 5])
        (({ value := ⟨1, 2⟩, listeners := [], log := [] } : AtomState RecordXY).value)
        = .ok ⟨5, 2⟩)) ∧
    (update ({ value := ⟨1, 2⟩, listeners := [], log := [] } : AtomState RecordXY)
        (fun v => produce v [.setX 5])
      = (set ({ value := ⟨1, 2⟩, listeners := [], log := [] } : AtomState RecordXY)
          ⟨5, 2⟩, none)) ∧
    (produce ({ value := ⟨1, 2⟩, listeners := [], log := [] } : AtomState RecordXY).value
        [.setX 5] = .ok ⟨5, 2⟩ ∧
     get (update ({ value := ⟨1, 2⟩, listeners := [], log := [] } : AtomState RecordXY)
        (fun v => produce v [.setX 5])).1 = ⟨5, 2⟩ ∧
     ({ value := ⟨1, 2⟩, listeners := [], log := [] } : AtomState RecordXY).value
        = ⟨1, 2⟩) :=
  ⟨⟨rfl, rfl⟩,
   c4_update_roundtrip.1
     ({ value := ⟨1, 2⟩, listeners := [], log := [] } : AtomState RecordXY)
     (fun v => produce v [.setX 5]) ⟨5, 2⟩ rfl,
   c4_update_roundtrip.2
     ({ value := ⟨1, 2⟩, listeners := [], log := [] } : AtomState RecordXY) rfl⟩

/-- C5: `serialize` is identity with `get`, `deserialize` is `set`,
`deserialize (serialize ())` is a complete no-op (value, listeners and
log unchanged, hence no notification), and `deserialize v` with `v`
differing from the current value performs exactly one notification pass,
invoking each registered listener once with `(v, oldValue)`. -/
theorem c5_persistence [DecidableEq α] (s : AtomState α) :
    serialize s = get s ∧
    (∀ v, deserialize s v = set s v) ∧
    deserialize s (serialize s) = s ∧
    ∀ v, v ≠ s.value →
      (deserialize s v).log = s.log ++ s.listeners.map (fun l => (l.id, v, s.value)) ∧
      (deserialize s v).value = v :=
  ⟨rfl, fun _ => rfl, set_self s,
   fun v hv => ⟨set_log s v hv, set_value s v hv⟩⟩

theorem c5_persistence_witness :
    serialize ({ value := 0, listeners := [⟨4, .pass⟩], log := [] } : AtomState Nat)
      = get ({ value := 0, listeners := [⟨4, .pass⟩], log := [] } : AtomState Nat) ∧
    deserialize ({ value := 0, listeners := [⟨4, .pass⟩], log := [] } : AtomState Nat) 2
      = set ({ value := 0, listeners := [⟨4, .pass⟩], log := [] } : AtomState Nat) 2 ∧
    deserialize ({ value := 0, listeners := [⟨4, .pass⟩], log := [] } : AtomState Nat)
        (serialize ({ value := 0, listeners := [⟨4, .pass⟩], log := [] } : AtomState Nat))
      = { value := 0, listeners := [⟨4, .pass⟩], log := [] } ∧
    (2 : Nat) ≠ ({ value := 0, listeners := [⟨4, .pass⟩], log := [] } : AtomState Nat).value ∧
    (deserialize ({ value := 0, listeners := [⟨4, .pass⟩], log := [] } : AtomState Nat) 2).log
      = [] ++ [(⟨4, .pass⟩ : Listener)].map (fun l => (l.id, 2, 0)) ∧
    (deserialize ({ value := 0, listeners := [⟨4, .pass⟩], log := [] } : AtomState Nat) 2).value
      = 2 := by
  have h := c5_persistence ({ value := 0, listeners := [⟨4, .pass⟩], log := [] } : AtomState Nat)
  exact ⟨h.1, h.2.1 2, h.2.2.1, by decide,
    (h.2.2.2 2 (by decide)).1, (h.2.2.2 2 (by decide)).2⟩

/- Characterization of `unsubscribe` (`indexOf` + `splice`) as
first-match removal. -/

theorem unsubscribeList_cons (i : Nat) (l : Listener) (rest : List Listener) :
    unsubscribeList i (l :: rest)
      = if l.id = i then rest else l :: unsubscribeList i rest := by
  by_cases h : l.id = i
  · simp [unsubscribeList, List.findIdx?_cons, h]
  · simp only [unsubscribeList, List.findIdx?_cons, h]
    have hne : (l.id == i) = false := by simp [h]
    rw [hne]
    simp only [Bool.false_eq_true, if_false]
    rw [List.findIdx?_succ]
    cases hf : rest.findIdx? (fun l' => l'.id == i) with
    | none => simp
    | some idx => simp [List.eraseIdx]

theorem unsubscribeList_not_found (i : Nat) (ls : List Listener)
    (h : ∀ l ∈ ls, l.id ≠ i) : unsubscribeList i ls = ls := by
  induction ls with
  | nil => rfl
  | cons l rest ih =>
      rw [unsubscribeList_cons, if_neg (h l (by simp))]
      rw [ih fun l' hl' => h l' (by simp [hl'])]

theorem unsubscribeList_first_match (i : Nat) (pre : List Listener)
    (l : Listener) (post : List Listener)
    (hpre : ∀ l' ∈ pre, l'.id ≠ i) (hl : l.id = i) :
    unsubscribeList i (pre ++ l :: post) = pre ++ post := by
  induction pre with
  | nil =>
      simp only [List.nil_append]
      rw [unsubscribeList_cons, if_pos hl]
  | cons p rest ih =>
      rw [List.cons_append, unsubscribeList_cons, if_neg (hpre p (by simp))]
      rw [ih fun l' hl' => hpre l' (by simp [hl'])]
      rfl

theorem unsubscribeList_idem_of_unique (i : Nat) (ls : List Listener)
    (h : ls.countP (fun l => l.id == i) ≤ 1) :
    unsubscribeList i (unsubscribeList i ls) = unsubscribeList i ls := by
  induction ls with
  | nil => rfl
  | cons l rest ih =>
      by_cases hl : l.id = i
      · have hpa : (fun l' : Listener => l'.id == i) l = true := by simp [hl]
        have hcount : rest.countP (fun l' => l'.id == i) + 1 ≤ 1 := by
          have hh := h
          rwa [List.countP_cons_of_pos (fun l' : Listener => l'.id == i) rest
            (a := l) hpa] at hh
        have hC : rest.countP (fun l' => l'.id == i) = 0 := by omega
        have hrest : ∀ l' ∈ rest, l'.id ≠ i := by
          intro l' hl'
          have := List.countP_eq_zero.mp hC l' hl'
          simpa using this
        rw [unsubscribeList_cons, if_pos hl]
        exact unsubscribeList_not_found i rest hrest
      · have hpa : ¬((fun l' : Listener => l'.id == i) l = true) := by simp [hl]
        have hcount : rest.countP (fun l' => l'.id == i) ≤ 1 := by
          have hh := h
          rwa [List.countP_cons_of_neg (fun l' : Listener => l'.id == i) rest
            (a := l) hpa] at hh
        rw [unsubscribeList_cons, if_neg hl, unsubscribeList_cons, if_neg hl,
          ih hcount]

/-- C6 (amended): `unsubscribe` removes exactly the first entry whose
identity matches, is a no-op when none matches, and preserves the order
of the remaining listeners; the handle returned by `subscribe` performs
exactly `unsubscribe(listener)`; calling the handle a second time is a
no-op provided the listener is registered at most once (with duplicate
registrations each call removes one more matching entry). -/
theorem c6_unsubscribe_semantics {α : Type} :
    (∀ (i : Nat) (ls : List Listener), (∀ l ∈ ls, l.id ≠ i) →
        unsubscribeList i ls = ls) ∧
    (∀ (i : Nat) (pre : List Listener) (l : Listener) (post : List Listener),
        (∀ l' ∈ pre, l'.id ≠ i) → l.id = i →
        unsubscribeList i (pre ++ l :: post) = pre ++ post) ∧
    (∀ (l : Listener) (s : AtomState α),
        subscribeHandle l s = unsubscribeA l.id s) ∧
    (∀ (i : Nat) (s : AtomState α),
        s.listeners.countP (fun l => l.id == i) ≤ 1 →
        unsubscribeA i (unsubscribeA i s) = unsubscribeA i s) := by
  refine ⟨unsubscribeList_not_found, unsubscribeList_first_match,
    fun l s => rfl, fun i s h => ?_⟩
  simp only [unsubscribeA]
  rw [unsubscribeList_idem_of_unique i s.listeners h]

theorem c6_unsubscribe_semantics_witness :
    unsubscribeList 7 [⟨3, .pass⟩] = [⟨3, .pass⟩] ∧
    ((⟨7, .pass⟩ : Listener).id = 7 ∧
      unsubscribeList 7 ([⟨3, .pass⟩] ++ ⟨7, .pass⟩ :: [⟨9, .pass⟩])
        = [⟨3, .pass⟩] ++ [⟨9, .pass⟩]) ∧
    (subscribeHandle ⟨7, .pass⟩
        ({ value := 0, listeners := [⟨7, .pass⟩], log := [] } : AtomState Nat)
      = unsubscribeA 7 { value := 0, listeners := [⟨7, .pass⟩], log := [] }) ∧
    (({ value := 0, listeners := [⟨7, .pass⟩], log := [] } : AtomState Nat).listeners.countP
        (fun l => l.id == 7) ≤ 1 ∧
      unsubscribeA 7 (unsubscribeA 7
          ({ value := 0, listeners := [⟨7, .pass⟩], log := [] } : AtomState Nat))
        = unsubscribeA 7
            ({ value := 0, listeners := [⟨7, .pass⟩], log := [] } : AtomState Nat)) :=
  ⟨(c6_unsubscribe_semantics (α := Nat)).1 7 [⟨3, .pass⟩] (by decide),
   ⟨rfl,
    (c6_unsubscribe_semantics (α := Nat)).2.1 7 [⟨3, .pass⟩] ⟨7, .pass⟩ [⟨9, .pass⟩]
      (by decide) rfl⟩,
   (c6_unsubscribe_semantics (α := Nat)).2.2.1 ⟨7, .pass⟩
     { value := 0, listeners := [⟨7, .pass⟩], log := [] },
   ⟨by decide,
    (c6_unsubscribe_semantics (α := Nat)).2.2.2 7
      { value := 0, listeners := [⟨7, .pass⟩], log := [] } (by decide)⟩⟩

/-- C6 as stated is refuted by a duplicate registration: subscribing the
same listener twice and calling the returned handle twice removes both
entries, so the second call is not a no-op. -/
theorem c6_handle_double_call_counterexample :
    subscribeHandle ⟨7, .pass⟩
        (subscribeHandle ⟨7, .pass⟩
          (subscribeA ⟨7, .pass⟩ (subscribeA ⟨7, .pass⟩
            ({ value := 0, listeners := [], log := [] } : AtomState Nat))))
      ≠ subscribeHandle ⟨7, .pass⟩
          (subscribeA ⟨7, .pass⟩ (subscribeA ⟨7, .pass⟩
            ({ value := 0, listeners := [], log := [] } : AtomState Nat))) := by
  decide

/- The `useValue` read hook.  Its body has two phases: the render phase
`useState(atom ? atom.get() : defaultValue)` computing the initial local
value, and the effect phase which, when an atom is present, re-fetches
`get()` into the local value and registers the state setter as listener
(`setLocalValue(atom.get()); atom.subscribe(setLocalValue)`), and when no
atom is present returns without subscribing.  The state setter
`setLocalValue` does not touch the listener list, so it is modelled as a
listener with action `pass`, identified by `hookId`. -/

/-- Render phase of `useValue`: `useState(atom ? atom.get() : defaultValue!)`. -/
def useValueRender (a : Option (AtomState α)) (fallback : α) : α :=
  match a with
  | none => fallback
  | some s => get s

/-- Effect phase of `useValue`: returns the local value after the effect
ran and the atom state after the effect ran (`none` when no atom was
supplied, hence no subscription was performed).  `localValue` is the
possibly stale local state from the render phase; `s` is the state of the
atom at effect time. -/
def useValueEffect (a : Option (AtomState α)) (hookId : Nat) (localValue : α) :
    α × Option (AtomState α) :=
  match a with
  | none => (localValue, none)
  | some s => (get s, some (subscribeA ⟨hookId, .pass⟩ s))

/-- C7: with no atom, `useValue` returns the fallback and the effect
performs no subscription; with an atom, the effect re-fetches `get()`
once — the resulting local value is the value of the atom at effect time,
whatever the (possibly stale) render-time local value was — and
registers the setter of the hook as a listener. -/
theorem c7_useValue_hook {α : Type} :
    (∀ fallback : α, useValueRender none fallback = fallback) ∧
    (∀ (hookId : Nat) (localValue : α),
      useValueEffect none hookId localValue = (localValue, none)) ∧
    (∀ (s : AtomState α) (hookId : Nat) (localValue : α),
      (useValueEffect (some s) hookId localValue).1 = get s ∧
      (useValueEffect (some s) hookId localValue).2
        = some { s with listeners := s.listeners ++ [⟨hookId, .pass⟩] }) :=
  ⟨fun _ => rfl, fun _ _ => rfl, fun _ _ _ => ⟨rfl, rfl⟩⟩

/-- The three values of the `CertificateExchangeMedium` union type. -/
inductive CertificateExchangeMedium where
  | FS_ACCESS : CertificateExchangeMedium
  | WWW : CertificateExchangeMedium
  | NONE : CertificateExchangeMedium
deriving DecidableEq, Repr

/-- `transformCertificateExchangeMediumToType`: the `switch` on the
numeric medium (`undefined` falls through with `1` to `FS_ACCESS`); the
`default` branch throws an `Error` whose message is the literal prefix
`Unknown Certificate exchange medium: ` followed by the medium. -/
def transformCertificateExchangeMediumToType (medium : Option Int) :
    Except String CertificateExchangeMedium :=
  match medium with
  | none => .ok .FS_ACCESS
  | some m =>
      if m = 1 then .ok .FS_ACCESS
      else if m = 2 then .ok .WWW
      else if m = 3 then .ok .NONE
      else .error ("Unknown Certificate exchange medium: " ++ toString m)

/-- C8: the medium transform maps `undefined` and `1` to `FS_ACCESS`,
`2` to `WWW`, `3` to `NONE`, throws an error naming the medium on every
other number, and succeeds exactly on `\x7bundefined, 1, 2, 3\x7d`. -/
theorem c8_medium_transform :
    transformCertificateExchangeMediumToType none = .ok .FS_ACCESS ∧
    transformCertificateExchangeMediumToType (some 1) = .ok .FS_ACCESS ∧
    transformCertificateExchangeMediumToType (some 2) = .ok .WWW ∧
    transformCertificateExchangeMediumToType (some 3) = .ok .NONE ∧
    (∀ m : Int, m ≠ 1 → m ≠ 2 → m ≠ 3 →
      transformCertificateExchangeMediumToType (some m)
        = .error ("Unknown Certificate exchange medium: " ++ toString m)) ∧
    (∀ m : Option Int,
      (∃ c, transformCertificateExchangeMediumToType m = .ok c) ↔
        (m = none ∨ m = some 1 ∨ m = some 2 ∨ m = some 3)) := by
  refine ⟨rfl, rfl, rfl, rfl, ?_, ?_⟩
  · intro m h1 h2 h3
    simp [transformCertificateExchangeMediumToType, h1, h2, h3]
  · intro m
    constructor
    · rintro ⟨c, hc⟩
      match m with
      | none => exact Or.inl rfl
      | some m =>
          by_cases h1 : m = 1
          · exact Or.inr (Or.inl (by rw [h1]))
          by_cases h2 : m = 2
          · exact Or.inr (Or.inr (Or.inl (by rw [h2])))
          by_cases h3 : m = 3
          · exact Or.inr (Or.inr (Or.inr (by rw [h3])))
          simp [transformCertificateExchangeMediumToType, h1, h2, h3] at hc
    · rintro (rfl | rfl | rfl | rfl) <;> exact ⟨_, rfl⟩

theorem c8_medium_transform_witness :
    ((4 : Int) ≠ 1 ∧ (4 : Int) ≠ 2 ∧ (4 : Int) ≠ 3) ∧
    transformCertificateExchangeMediumToType (some 4)
      = .error ("Unknown Certificate exchange medium: " ++ toString (4 : Int)) :=
  ⟨⟨by decide, by decide, by decide⟩,
   c8_medium_transform.2.2.2.2.1 4 (by decide) (by decide) (by decide)⟩

/- The `createTablePlugin` message handler for `props.method`.  The
`DataSource` type is external to the sources, so the effect of the handler on
the rows is reified as a `RowsOp` (no operation, `rows.upsert(record)`,
or `rows.append(record)`); applying a `RowsOp` takes the upsert
implementation as a parameter. -/

/-- The effect of one `props.method` message on the rows data source. -/
inductive RowsOp (Row : Type) where
  | noop : RowsOp Row
  | upsert : Row → RowsOp Row
  | append : Row → RowsOp Row
deriving DecidableEq, Repr

/-- `props.buildRow ? props.buildRow(event) : (event as any) as Row`:
when no `buildRow` is given the raw event is cast to a row, so raw
events and rows share one type here. -/
def builtRecord {Row : Type} (buildRow : Option (Row → Row)) (event : Row) : Row :=
  match buildRow with
  | some f => f event
  | none => event

/-- Body of the `client.onMessage(props.method, ...)` handler: return
early with no effect when `isPaused.get()`, otherwise build the record
and upsert it when `props.key` was given, append it otherwise. -/
def onDataMessage {Row : Type} (isPaused : AtomState Bool) (hasKey : Bool)
    (buildRow : Option (Row → Row)) (event : Row) : RowsOp Row :=
  if get isPaused then
    RowsOp.noop
  else
    let record := builtRecord buildRow event
    if hasKey then RowsOp.upsert record else RowsOp.append record

/-- Apply a reified rows operation to a list of rows, given an
implementation of keyed upsert. -/
def applyRowsOp {Row : Type} (upsertImpl : List Row → Row → List Row) :
    RowsOp Row → List Row → List Row
  | RowsOp.noop, rows => rows
  | RowsOp.upsert r, rows => upsertImpl rows r
  | RowsOp.append r, rows => rows ++ [r]

/-- C9: while `isPaused.get()` is true every `props.method` message has
no effect on the rows (the handler performs neither append nor upsert);
when not paused, the built row is upserted when a `key` option was
given and appended otherwise. -/
theorem c9_table_plugin_pause {Row : Type} (p : AtomState Bool) (hasKey : Bool)
    (buildRow : Option (Row → Row)) (event : Row) :
    (get p = true →
      onDataMessage p hasKey buildRow event = RowsOp.noop ∧
      ∀ (impl : List Row → Row → List Row) (rows : List Row),
        applyRowsOp impl (onDataMessage p hasKey buildRow event) rows = rows) ∧
    (get p = false → hasKey = true →
      onDataMessage p hasKey buildRow event
        = RowsOp.upsert (builtRecord buildRow event)) ∧
    (get p = false → hasKey = false →
      onDataMessage p hasKey buildRow event
        = RowsOp.append (builtRecord buildRow event)) := by
  refine ⟨fun hp => ?_, fun hp hk => ?_, fun hp hk => ?_⟩
  · have h : onDataMessage p hasKey buildRow event = RowsOp.noop := by
      simp [onDataMessage, hp]
    exact ⟨h, fun impl rows => by rw [h]; rfl⟩
  · simp [onDataMessage, hp, hk]
  · simp [onDataMessage, hp, hk]

theorem c9_table_plugin_pause_witness :
    (get ({ value := true, listeners := [], log := [] } : AtomState Bool) = true ∧
      onDataMessage ({ value := true, listeners := [], log := [] } : AtomState Bool)
          true (some (fun r => r + 1)) (10 : Nat)
        = RowsOp.noop ∧
      applyRowsOp (fun rows r => rows ++ [r])
          (onDataMessage ({ value := true, listeners := [], log := [] } : AtomState Bool)
            true (some (fun r => r + 1)) (10 : Nat)) [1, 2]
        = [1, 2]) ∧
    (onDataMessage ({ value := false, listeners := [], log := [] } : AtomState Bool)
        true (some (fun r => r + 1)) (10 : Nat)
      = RowsOp.upsert (builtRecord (some (fun r => r + 1)) 10)) ∧
    (onDataMessage ({ value := false, listeners := [], log := [] } : AtomState Bool)
        false (some (fun r => r + 1)) (10 : Nat)
      = RowsOp.append (builtRecord (some (fun r => r + 1)) 10)) := by
  have hpaused := (c9_table_plugin_pause
    ({ value := true, listeners := [], log := [] } : AtomState Bool)
    true (some (fun r => r + 1)) (10 : Nat)).1 rfl
  exact ⟨⟨rfl, hpaused.1, hpaused.2 (fun rows r => rows ++ [r]) [1, 2]⟩,
    (c9_table_plugin_pause ({ value := false, listeners := [], log := [] } : AtomState Bool)
      true (some (fun r => r + 1)) (10 : Nat)).2.1 rfl rfl,
    (c9_table_plugin_pause ({ value := false, listeners := [], log := [] } : AtomState Bool)
      false (some (fun r => r + 1)) (10 : Nat)).2.2 rfl rfl⟩

/-- Modelled from the spec: `SecureClientQuery` is imported from
`ServerAdapter`, which is not among the sources; only its certificate
fields are visible here (`csr`, `csr_path` optional strings, `medium`),
together with the `ClientQuery` fields this file reads (`app`, `os`,
`sdk_version`) and the device identification fields.  The exact field
list does not matter for the clone: the spread `\x7b...clientQuery\x7d` copies
every field, so a representative record stands in. -/
structure SecureClientQuery where
  app : String
  os : String
  device : String
  device_id : String
  sdk_version : Option Int
  medium : Option Int
  csr : Option String
  csr_path : Option String
deriving DecidableEq, Repr

/-- JavaScript truthiness of the optional string `csr`:
`!clientQuery.csr` is true exactly when `csr` is `undefined` or the
empty string. -/
def strTruthy (o : Option String) : Bool :=
  match o with
  | none => false
  | some s => !(s == "")

/-- `cloneClientQuerySafeForLogging`:
the spread copies every field and the `csr` field is replaced by the
literal `<hidden>` unless it is falsy, in which case it is kept as is. -/
def cloneClientQuerySafeForLogging (clientQuery : SecureClientQuery) :
    SecureClientQuery :=
  { clientQuery with
      csr := if strTruthy clientQuery.csr then some "<hidden>" else clientQuery.csr }

/-- C10: the clone agrees with the input on every field except `csr`;
`csr` is the literal `<hidden>` exactly when the input `csr` field is
truthy and is the unchanged input `csr` (preserving `undefined` and the
empty string) otherwise.  The input record itself is a value and is
never mutated. -/
theorem c10_clone_safe_for_logging (q : SecureClientQuery) :
    (cloneClientQuerySafeForLogging q).app = q.app ∧
    (cloneClientQuerySafeForLogging q).os = q.os ∧
    (cloneClientQuerySafeForLogging q).device = q.device ∧
    (cloneClientQuerySafeForLogging q).device_id = q.device_id ∧
    (cloneClientQuerySafeForLogging q).sdk_version = q.sdk_version ∧
    (cloneClientQuerySafeForLogging q).medium = q.medium ∧
    (cloneClientQuerySafeForLogging q).csr_path = q.csr_path ∧
    (cloneClientQuerySafeForLogging q).csr
      = (if strTruthy q.csr then some "<hidden>" else q.csr) :=
  ⟨rfl, rfl, rfl, rfl, rfl, rfl, rfl, rfl⟩

end Flipper
